import Mathlib

/-!
Shallow embedding of `src/ma.rs` (moving-average / MACD indicator core).

Prices (`f64` in the source) are modelled as exact rationals `ℚ`; the
`VecDeque<f64>` accumulator is a `List ℚ` whose head is the logical front
(newest element), so `push_front` is `cons` and `pop_back` is `dropLast`.
The `u16` window size is a `Nat` (construction takes a `u16`, so values are
already below 2^16 and no wrap-around can occur in the source).

`PositionType`, `TradingPair` and `MarketDataTracker` live in modules of the
repository that are not part of `src/` (`position.rs`, `tradingpair.rs`,
`process_md.rs`); they are modelled from the spec, see their doc comments.
The `info!` change-notification side effect of the evaluators is modelled as
a `Bool` in the result (`true` exactly when the log line would be emitted).
-/

/-- Modelled from the spec: the directional classification from `position.rs`
(not in `src/`) — a tri-state outcome Long / Short / No-signal, where
`PositionType.None` is the No-signal sentinel. -/
inductive PositionType where
  | Long
  | Short
  | None
deriving DecidableEq

/-- State of `MAData` (src/src/ma.rs lines 18-28): depth-3 history of
computed averages plus the bounded accumulator of recent prices. -/
structure MAData where
  latest : Option ℚ
  penultimate : Option ℚ
  penultimate_penultimate : Option ℚ
  acc : List ℚ
  num_candles : Nat
deriving DecidableEq

/-- `MAData::new` (src/src/ma.rs lines 67-75): empty accumulator, no
validation of `num_candles` is performed. -/
def MAData.new (num_candles : Nat) : MAData :=
  { latest := none
    penultimate := none
    penultimate_penultimate := none
    acc := []
    num_candles := num_candles }

/-- `MAData::update` (src/src/ma.rs lines 94-98): push the new value into the
depth-3 history. -/
def MAData.update (d : MAData) (new_ma : ℚ) : MAData :=
  { d with
    penultimate_penultimate := d.penultimate
    penultimate := d.latest
    latest := some new_ma }

/-- `MAData::compute` (src/src/ma.rs lines 101-134): evict the oldest price
when full, insert the new price at the front, and when the buffer holds
exactly `num_candles` entries compute the simple or exponential average. -/
def MAData.compute (d : MAData) (close_price : ℚ) (ema : Bool) : MAData :=
  let acc1 := if d.acc.length = d.num_candles then d.acc.dropLast else d.acc
  let acc2 := close_price :: acc1
  let d2 : MAData := { d with acc := acc2 }
  if acc2.length = d.num_candles then
    let acc_val := acc2.foldl (fun s cp => s + cp) 0
    let new_ma := acc_val / (d.num_candles : ℚ)
    if ema then
      let prev_ema :=
        match d.latest with
        | some v => v
        | none => new_ma
      let weight := 2 / ((d.num_candles : ℚ) + 1)
      d2.update (close_price * weight + prev_ema * (1 - weight))
    else
      d2.update new_ma
  else
    d2

/-- Feeding a list of prices into an accumulator, one `compute` per price. -/
def MAData.feed (d : MAData) (ps : List ℚ) (ema : Bool) : MAData :=
  ps.foldl (fun a p => a.compute p ema) d

/-- State of `MACD` (src/src/ma.rs lines 30-37). -/
structure MACD where
  ema12 : MAData
  ema26 : MAData
  signal : MAData
  macd_latest : Option ℚ
  macd_previous : Option ℚ
deriving DecidableEq

/-- `MACD::new` (src/src/ma.rs lines 40-48). -/
def MACD.new : MACD :=
  { ema12 := MAData.new 12
    ema26 := MAData.new 26
    signal := MAData.new 9
    macd_latest := none
    macd_previous := none }

/-- `MACD::compute` (src/src/ma.rs lines 50-63). The source unwraps
`ema12.latest()`; that unwrap is modelled by `Option.getD 0`, and the
reachability of the `some` case is proved separately (the fast window is
shorter than the slow one, so `ema12.latest` is defined whenever
`ema26.latest` is). -/
def MACD.compute (m : MACD) (close_price : ℚ) : MACD :=
  let m1 : MACD :=
    { m with
      ema12 := m.ema12.compute close_price true
      ema26 := m.ema26.compute close_price true }
  match m1.ema26.latest with
  | some l26 =>
      let m2 : MACD :=
        if m1.macd_latest.isSome then { m1 with macd_previous := m1.macd_latest } else m1
      let macd := m1.ema12.latest.getD 0 - l26
      { m2 with
        macd_latest := some macd
        signal := m2.signal.compute macd true }
  | none => m1

/-- Feeding a list of close prices into the MACD indicator. -/
def MACD.feed (m : MACD) (ps : List ℚ) : MACD :=
  ps.foldl (fun a p => a.compute p) m

/-- Modelled from the spec: trading-pair metadata from `tradingpair.rs` (not
in `src/`) — a display identifier (diagnostics only) and the configured
decimal precision returned by `get_price_dps`. -/
structure TradingPair where
  symbol : String
  price_dps : Int
deriving DecidableEq

def TradingPair.get_price_dps (tp : TradingPair) : Int :=
  tp.price_dps

/-- Modelled from the spec: `MarketDataTracker` from `process_md.rs` (not in
`src/`) — the per-instrument indicator state (MACD indicator, fast and slow
moving-average accumulators) together with one persisted last-emitted
direction per strategy (`macd_signal`, `ma_trend_change_signal`,
`ma_cross_signal`). -/
structure MarketDataTracker where
  macd : MACD
  fast_ma_data : MAData
  slow_ma_data : MAData
  macd_signal : PositionType
  ma_trend_change_signal : PositionType
  ma_cross_signal : PositionType
deriving DecidableEq

/-- `math::round::floor(value, dps)` (an external crate used at
src/src/ma.rs lines 265-267): round down to `dps` decimal digits. -/
def round_floor (x : ℚ) (dps : Int) : ℚ :=
  (Int.floor (x * 10 ^ dps) : ℚ) / 10 ^ dps

/-- `trading_decision_macd` (src/src/ma.rs lines 138-190). The result is the
returned `PositionType`, the updated tracker, and whether the `info!`
change notification fired. -/
def trading_decision_macd (tp : TradingPair) (mt : MarketDataTracker) :
    PositionType × MarketDataTracker × Bool :=
  match mt.macd.macd_latest, mt.macd.signal.latest, mt.macd.macd_previous with
  | some macd, some signal, some macd_prev =>
      if macd > signal ∧ macd_prev < signal then
        if mt.macd_signal ≠ PositionType.Long then
          (PositionType.Long, { mt with macd_signal := PositionType.Long }, true)
        else
          (PositionType.Long, mt, false)
      else if macd < signal ∧ macd_prev > signal then
        if mt.macd_signal ≠ PositionType.Short then
          (PositionType.Short, { mt with macd_signal := PositionType.Short }, true)
        else
          (PositionType.Short, mt, false)
      else
        (PositionType.None, mt, false)
  | _, _, _ => (PositionType.None, mt, false)

/-- `trading_decision_ma_trend_change` (src/src/ma.rs lines 195-250). -/
def trading_decision_ma_trend_change (tp : TradingPair) (mt : MarketDataTracker) :
    PositionType × MarketDataTracker × Bool :=
  match mt.slow_ma_data.latest, mt.fast_ma_data.latest, mt.fast_ma_data.penultimate,
      mt.fast_ma_data.penultimate_penultimate with
  | some c, some _, some p, some pp =>
      if c > p ∧ p < pp then
        if mt.ma_trend_change_signal ≠ PositionType.Long then
          (PositionType.Long, { mt with ma_trend_change_signal := PositionType.Long }, true)
        else
          (PositionType.Long, mt, false)
      else if c < p ∧ p > pp then
        if mt.ma_trend_change_signal ≠ PositionType.Short then
          (PositionType.Short, { mt with ma_trend_change_signal := PositionType.Short }, true)
        else
          (PositionType.Short, mt, false)
      else
        (PositionType.None, mt, false)
  | _, _, _, _ => (PositionType.None, mt, false)

/-- `trading_decision_ma_cross` (src/src/ma.rs lines 255-311). -/
def trading_decision_ma_cross (tp : TradingPair) (mt : MarketDataTracker) :
    PositionType × MarketDataTracker × Bool :=
  match mt.fast_ma_data.latest, mt.slow_ma_data.latest, mt.fast_ma_data.penultimate with
  | some fl, some sl, some fp =>
      let dps := tp.get_price_dps
      let f_ma_latest_val := round_floor fl dps
      let f_ma_prev_val := round_floor fp dps
      let s_ma_latest_val := round_floor sl dps
      if f_ma_latest_val > s_ma_latest_val ∧ f_ma_prev_val < s_ma_latest_val then
        if mt.ma_cross_signal ≠ PositionType.Long then
          (PositionType.Long, { mt with ma_cross_signal := PositionType.Long }, true)
        else
          (PositionType.Long, mt, false)
      else if f_ma_latest_val < s_ma_latest_val ∧ f_ma_prev_val > s_ma_latest_val then
        if mt.ma_cross_signal ≠ PositionType.Short then
          (PositionType.Short, { mt with ma_cross_signal := PositionType.Short }, true)
        else
          (PositionType.Short, mt, false)
      else
        (PositionType.None, mt, false)
  | _, _, _ => (PositionType.None, mt, false)

/-! Helper notions for stating lemmas, and concrete states used in
witnesses and counterexamples. -/

/-- The buffer contents right after the eviction / insertion phase of
`MAData.compute` (before the average computation is attempted). -/
def MAData.newBuf (d : MAData) (p : ℚ) : List ℚ :=
  p :: (if d.acc.length = d.num_candles then d.acc.dropLast else d.acc)

/-- The running sum the source accumulates over the buffer. -/
def sumAcc (l : List ℚ) : ℚ :=
  l.foldl (fun s cp => s + cp) 0

/-- Warm-up invariant of a moving-average accumulator with window `N` that
has seen `k` prices: the window never exceeds `N`, the depth-3 history is
empty before `N` prices, and `latest` is defined from the `N`-th price on. -/
def MAInv (N k : Nat) (d : MAData) : Prop :=
  d.num_candles = N ∧
  d.acc.length = min k N ∧
  (k < N → d.latest = none ∧ d.penultimate = none ∧ d.penultimate_penultimate = none) ∧
  (N ≤ k → d.latest.isSome = true)

/-- Invariant of the MACD indicator after `k` close prices: warm-up state of
the three accumulators, `macd_latest` defined exactly from the 26th price
on (and equal to fast minus slow), the signal accumulator fed once per tick
from the 26th on (hence defined exactly from the 34th price on). -/
def MacdInv (k : Nat) (m : MACD) : Prop :=
  MAInv 12 k m.ema12 ∧
  MAInv 26 k m.ema26 ∧
  MAInv 9 (k - 25) m.signal ∧
  (m.macd_latest.isSome = true ↔ 26 ≤ k) ∧
  (26 ≤ k → ∃ l12 l26, m.ema12.latest = some l12 ∧ m.ema26.latest = some l26 ∧
    m.macd_latest = some (l12 - l26))

/-- The upward-cross condition of the MACD evaluator: all three inputs
defined, `macd` above the signal line and `macd_prev` below it. -/
def upcross (mt : MarketDataTracker) : Prop :=
  ∃ m s p, mt.macd.macd_latest = some m ∧ mt.macd.signal.latest = some s ∧
    mt.macd.macd_previous = some p ∧ s < m ∧ p < s

/-- A concrete trading pair with two decimal digits of price precision. -/
def tp0 : TradingPair :=
  { symbol := "X", price_dps := 2 }

/-- A freshly constructed tracker: nothing warmed up yet. -/
def mtFresh : MarketDataTracker :=
  { macd := MACD.new
    fast_ma_data := MAData.new 3
    slow_ma_data := MAData.new 5
    macd_signal := PositionType.None
    ma_trend_change_signal := PositionType.None
    ma_cross_signal := PositionType.None }

/-- A MACD state in upward-cross position: macd = 2 above the signal line 1,
previous macd = 0 below it. -/
def macdUp : MACD :=
  { ema12 := MAData.new 12
    ema26 := MAData.new 26
    signal := { latest := some 1, penultimate := none, penultimate_penultimate := none,
                acc := [], num_candles := 9 }
    macd_latest := some 2
    macd_previous := some 0 }

/-- Tracker in upward-cross position whose recorded MACD debounce direction
is already Long (as after an earlier Long classification). -/
def mtC3 : MarketDataTracker :=
  { macd := macdUp
    fast_ma_data := MAData.new 2
    slow_ma_data := MAData.new 3
    macd_signal := PositionType.Long
    ma_trend_change_signal := PositionType.None
    ma_cross_signal := PositionType.None }

/-- Tracker in upward-cross position whose recorded MACD debounce direction
is not yet Long. -/
def mtC3start : MarketDataTracker :=
  { macd := macdUp
    fast_ma_data := MAData.new 2
    slow_ma_data := MAData.new 3
    macd_signal := PositionType.None
    ma_trend_change_signal := PositionType.None
    ma_cross_signal := PositionType.None }

/-- Concrete full window-3 accumulator: prices 30, 20, 10 (newest first). -/
def d5w : MAData :=
  { latest := some 20
    penultimate := none
    penultimate_penultimate := none
    acc := [30, 20, 10]
    num_candles := 3 }

/-- Window-3 accumulator one price short of full, with no average yet. -/
def d6w : MAData :=
  { latest := none
    penultimate := none
    penultimate_penultimate := none
    acc := [1, 2]
    num_candles := 3 }

/-- Tracker for the MA-crossover precision example: fast latest 10.004,
fast penultimate 10.002, slow latest 10.00. -/
def mtC8 : MarketDataTracker :=
  { macd := MACD.new
    fast_ma_data := { latest := some (10004 / 1000), penultimate := some (10002 / 1000),
                      penultimate_penultimate := none, acc := [], num_candles := 3 }
    slow_ma_data := { latest := some 10, penultimate := none,
                      penultimate_penultimate := none, acc := [], num_candles := 5 }
    macd_signal := PositionType.None
    ma_trend_change_signal := PositionType.None
    ma_cross_signal := PositionType.None }

/-- Tracker for the trend-reversal example: fast history 5 (oldest), 3, 4
(latest) and slow latest 6. -/
def mtC9 : MarketDataTracker :=
  { macd := MACD.new
    fast_ma_data := { latest := some 4, penultimate := some 3,
                      penultimate_penultimate := some 5, acc := [], num_candles := 3 }
    slow_ma_data := { latest := some 6, penultimate := none,
                      penultimate_penultimate := none, acc := [], num_candles := 5 }
    macd_signal := PositionType.None
    ma_trend_change_signal := PositionType.None
    ma_cross_signal := PositionType.None }

/-! Basic lemmas about `MAData.compute`. -/

theorem MAData.feed_nil (d : MAData) (e : Bool) : d.feed [] e = d := rfl

theorem MAData.feed_cons (d : MAData) (p : ℚ) (ps : List ℚ) (e : Bool) :
    d.feed (p :: ps) e = (d.compute p e).feed ps e := rfl

/-- When the buffer does not reach `num_candles` after insertion, `compute`
only updates the buffer. -/
theorem MAData.compute_noproduce (d : MAData) (p : ℚ) (e : Bool)
    (hl : (d.newBuf p).length ≠ d.num_candles) :
    d.compute p e = { d with acc := d.newBuf p } := by
  simp only [MAData.compute, MAData.newBuf] at *
  rw [if_neg hl]

/-- When the buffer reaches `num_candles` after insertion, `compute` produces
a new average: simple mean in simple mode, the EMA recurrence (seeded with
the simple mean) in exponential mode. -/
theorem MAData.compute_produce (d : MAData) (p : ℚ) (e : Bool)
    (hl : (d.newBuf p).length = d.num_candles) :
    d.compute p e =
      { d with
        acc := d.newBuf p
        penultimate_penultimate := d.penultimate
        penultimate := d.latest
        latest := some (if e then
            p * (2 / ((d.num_candles : ℚ) + 1)) +
              (d.latest.getD (sumAcc (d.newBuf p) / (d.num_candles : ℚ))) *
                (1 - 2 / ((d.num_candles : ℚ) + 1))
          else sumAcc (d.newBuf p) / (d.num_candles : ℚ)) } := by
  cases hd : d.latest <;> cases e <;>
    simp only [MAData.compute, MAData.update, MAData.newBuf, sumAcc] at * <;>
    rw [if_pos hl] <;> simp [hd]

theorem MAData.compute_num_candles (d : MAData) (p : ℚ) (e : Bool) :
    (d.compute p e).num_candles = d.num_candles := by
  by_cases hl : (d.newBuf p).length = d.num_candles
  · rw [MAData.compute_produce d p e hl]
  · rw [MAData.compute_noproduce d p e hl]

theorem MAData.newBuf_length_of_ne (d : MAData) (p : ℚ)
    (h : d.acc.length ≠ d.num_candles) :
    (d.newBuf p).length = d.acc.length + 1 := by
  simp [MAData.newBuf, h]

theorem MAData.newBuf_length_of_full (d : MAData) (p : ℚ)
    (hN : 1 ≤ d.num_candles) (h : d.acc.length = d.num_candles) :
    (d.newBuf p).length = d.num_candles := by
  simp only [MAData.newBuf, h, if_pos, List.length_cons, List.length_dropLast]
  omega

/-! The warm-up invariant. -/

theorem MAInv.base (N : Nat) (hN : 1 ≤ N) : MAInv N 0 (MAData.new N) := by
  refine ⟨rfl, by simp [MAData.new], fun _ => ⟨rfl, rfl, rfl⟩, fun h => absurd h (by omega)⟩

theorem MAInv.step {N k : Nat} {d : MAData} (hN : 1 ≤ N) (h : MAInv N k d)
    (p : ℚ) (e : Bool) : MAInv N (k + 1) (d.compute p e) := by
  obtain ⟨hnum, hlen, hwarm, hsome⟩ := h
  by_cases hk : k < N
  · have hne : d.acc.length ≠ d.num_candles := by
      rw [hlen, hnum]; omega
    have hb : (d.newBuf p).length = d.acc.length + 1 := d.newBuf_length_of_ne p hne
    by_cases hfill : k + 1 = N
    · have hbl : (d.newBuf p).length = d.num_candles := by
        rw [hb, hlen, hnum]; omega
      rw [MAData.compute_produce d p e hbl]
      refine ⟨hnum, ?_, fun hlt => absurd hlt (by omega), fun _ => by simp⟩
      simp only [hbl, hnum]; omega
    · have hbl : (d.newBuf p).length ≠ d.num_candles := by
        rw [hb, hlen, hnum]; omega
      rw [MAData.compute_noproduce d p e hbl]
      obtain ⟨h1, h2, h3⟩ := hwarm hk
      refine ⟨hnum, ?_, fun _ => ⟨h1, h2, h3⟩, fun hge => absurd hge (by omega)⟩
      rw [hb, hlen]; omega
  · have hfull : d.acc.length = d.num_candles := by
      rw [hlen, hnum]; omega
    have hbl : (d.newBuf p).length = d.num_candles :=
      d.newBuf_length_of_full p (by omega) hfull
    rw [MAData.compute_produce d p e hbl]
    refine ⟨hnum, ?_, fun hlt => absurd hlt (by omega), fun _ => by simp⟩
    simp only [hbl, hnum]; omega

theorem MAInv.feed {N k : Nat} {d : MAData} (hN : 1 ≤ N) (h : MAInv N k d)
    (ps : List ℚ) (e : Bool) : MAInv N (k + ps.length) (d.feed ps e) := by
  induction ps generalizing d k with
  | nil => simpa [MAData.feed_nil] using h
  | cons p ps ih =>
      have hstep := h.step hN p e
      have := ih hstep
      simpa [MAData.feed_cons, Nat.add_comm, Nat.add_assoc, Nat.add_left_comm] using this

theorem MAInv.of_feed_new (N : Nat) (hN : 1 ≤ N) (ps : List ℚ) (e : Bool) :
    MAInv N ps.length ((MAData.new N).feed ps e) := by
  simpa using (MAInv.base N hN).feed hN ps e

/-- With a zero window the source never produces a value and the buffer
grows by one on every tick (the initial `pop_back` acts on an empty deque
and is a no-op). -/
theorem MAData.compute_zero_window {d : MAData} (h0 : d.num_candles = 0)
    (p : ℚ) (e : Bool) :
    (d.compute p e).latest = d.latest ∧
    (d.compute p e).acc.length = d.acc.length + 1 ∧
    (d.compute p e).num_candles = 0 := by
  have hb : (d.newBuf p).length = d.acc.length + 1 := by
    simp only [MAData.newBuf, h0]
    split <;> simp_all [List.length_dropLast]
  have hbl : (d.newBuf p).length ≠ d.num_candles := by
    rw [hb, h0]; omega
  rw [MAData.compute_noproduce d p e hbl]
  exact ⟨rfl, hb, h0⟩

theorem MAData.feed_zero_window {d : MAData} (h0 : d.num_candles = 0)
    (ps : List ℚ) (e : Bool) :
    (d.feed ps e).latest = d.latest ∧
    (d.feed ps e).acc.length = d.acc.length + ps.length ∧
    (d.feed ps e).num_candles = 0 := by
  induction ps generalizing d with
  | nil => simpa [MAData.feed_nil] using h0
  | cons p ps ih =>
      obtain ⟨hl, ha, hn⟩ := MAData.compute_zero_window h0 p e
      obtain ⟨il, ia, in2⟩ := ih hn
      rw [MAData.feed_cons]
      refine ⟨by rw [il, hl], by rw [ia, ha]; simp; omega, in2⟩

/-! Claim C1. -/

/-- C1, counterexample: constructing `MAData` with `window_size = 0` does
not fail — `MAData::new(0)` returns an ordinary accumulator (no validation
is performed anywhere in the constructor), and computing on it proceeds
without any error. -/
theorem c1_counterexample :
    MAData.new 0 =
      { latest := none, penultimate := none, penultimate_penultimate := none,
        acc := [], num_candles := 0 } ∧
    ((MAData.new 0).compute 1 false).acc = [1] ∧
    ((MAData.new 0).compute 1 false).latest = none := by
  refine ⟨rfl, ?_, ?_⟩ <;> simp [MAData.new, MAData.compute]

/-- C1, amended: `MAData::new` performs no validation at all — constructing
with `window_size = 0` succeeds, and the resulting accumulator never
produces an average (its `latest` stays empty) while its buffer grows
without bound, one entry per tick; no error ever surfaces, at construction
time or later. -/
theorem c1_new_zero_window_accepted (ps : List ℚ) (e : Bool) :
    ((MAData.new 0).feed ps e).latest = none ∧
    ((MAData.new 0).feed ps e).acc.length = ps.length ∧
    ((MAData.new 0).feed ps e).num_candles = 0 := by
  have h := MAData.feed_zero_window (d := MAData.new 0) rfl ps e
  simpa [MAData.new] using h

/-! Claim C4. -/

/-- C4: warm-up and bounded-window invariant. For every window size `N ≥ 1`
and any price sequence: the buffer length never exceeds `N`; after fewer
than `N` prices all three history accessors are empty; and once `N` prices
have been seen, `latest` is defined, the buffer holds exactly `N` prices,
and every further tick produces a fresh average (the history triple shifts
and `latest` is again defined). -/
theorem c4_warmup_invariant (N : Nat) (hN : 1 ≤ N) (ps : List ℚ) (e : Bool) :
    ((MAData.new N).feed ps e).acc.length ≤ N ∧
    (ps.length < N →
      ((MAData.new N).feed ps e).latest = none ∧
      ((MAData.new N).feed ps e).penultimate = none ∧
      ((MAData.new N).feed ps e).penultimate_penultimate = none) ∧
    (N ≤ ps.length →
      ((MAData.new N).feed ps e).latest.isSome = true ∧
      ((MAData.new N).feed ps e).acc.length = N ∧
      (∀ (p : ℚ) (e2 : Bool),
        (((MAData.new N).feed ps e).compute p e2).latest.isSome = true ∧
        (((MAData.new N).feed ps e).compute p e2).penultimate =
          ((MAData.new N).feed ps e).latest)) := by
  obtain ⟨hnum, hlen, hwarm, hsome⟩ := MAInv.of_feed_new N hN ps e
  refine ⟨by omega, hwarm, fun hge => ⟨hsome hge, by omega, fun p e2 => ?_⟩⟩
  have hfull : ((MAData.new N).feed ps e).acc.length =
      ((MAData.new N).feed ps e).num_candles := by omega
  have hbl := ((MAData.new N).feed ps e).newBuf_length_of_full p (by omega) hfull
  rw [MAData.compute_produce _ p e2 hbl]
  simp

/-- C4, witness at `N = 2`, prices `[5]` and then `[5, 7, 9]`. -/
theorem c4_warmup_invariant_witness :
    (((MAData.new 2).feed [5] false).latest = none ∧
      ((MAData.new 2).feed [5] false).penultimate = none ∧
      ((MAData.new 2).feed [5] false).penultimate_penultimate = none) ∧
    ((MAData.new 2).feed [5, 7, 9] false).latest.isSome = true := by
  constructor
  · exact (c4_warmup_invariant 2 (by norm_num) [5] false).2.1 (by norm_num)
  · exact ((c4_warmup_invariant 2 (by norm_num) [5, 7, 9] false).2.2 (by norm_num)).1

/-! Claim C5. -/

/-- C5: simple-mode sliding window. On a tick with a full buffer the tail
(oldest price) is evicted before the new price is inserted at the head, and
`latest` becomes the arithmetic mean of the prices then in the buffer; the
spec's window-3 example `[10, 20, 30] ↦ 20` and, after feeding `40` (which
evicts `10`), `{40, 30, 20} ↦ 30`, both hold. -/
theorem c5_simple_sliding (d : MAData) (p : ℚ)
    (hN : 1 ≤ d.num_candles) (hfull : d.acc.length = d.num_candles) :
    ((d.compute p false).acc = p :: d.acc.dropLast ∧
      (d.compute p false).latest =
        some (sumAcc (p :: d.acc.dropLast) / (d.num_candles : ℚ))) ∧
    ((MAData.new 3).feed [10, 20, 30] false).latest = some 20 ∧
    ((MAData.new 3).feed [10, 20, 30, 40] false).acc = [40, 30, 20] ∧
    ((MAData.new 3).feed [10, 20, 30, 40] false).latest = some 30 := by
  have hb : d.newBuf p = p :: d.acc.dropLast := by
    simp [MAData.newBuf, hfull]
  have hbl : (d.newBuf p).length = d.num_candles :=
    d.newBuf_length_of_full p hN hfull
  refine ⟨?_, ?_, ?_, ?_⟩
  · rw [MAData.compute_produce d p false hbl, hb]
    exact ⟨rfl, by simp⟩
  · simp [MAData.feed, MAData.compute, MAData.update, MAData.new]; norm_num
  · simp [MAData.feed, MAData.compute, MAData.update, MAData.new]
  · simp [MAData.feed, MAData.compute, MAData.update, MAData.new]; norm_num

/-- C5, witness: feeding 40 into the full window `[30, 20, 10]`. -/
theorem c5_simple_sliding_witness :
    ((d5w.compute 40 false).acc = 40 :: d5w.acc.dropLast ∧
      (d5w.compute 40 false).latest =
        some (sumAcc (40 :: d5w.acc.dropLast) / (d5w.num_candles : ℚ))) ∧
    ((MAData.new 3).feed [10, 20, 30] false).latest = some 20 ∧
    ((MAData.new 3).feed [10, 20, 30, 40] false).acc = [40, 30, 20] ∧
    ((MAData.new 3).feed [10, 20, 30, 40] false).latest = some 30 :=
  c5_simple_sliding d5w 40 (by decide) rfl

/-! Claim C6. -/

/-- C6: exponential mode. Whenever the buffer holds `num_candles` entries
after insertion, the new exponential average is
`price * α + previous * (1 - α)` with `α = 2 / (num_candles + 1)`, where the
previous value is the stored `latest` if one exists and otherwise is seeded
with the simple mean of the current buffer. -/
theorem c6_exponential (d : MAData) (p : ℚ)
    (hl : (d.newBuf p).length = d.num_candles) :
    (∀ v, d.latest = some v →
      (d.compute p true).latest =
        some (p * (2 / ((d.num_candles : ℚ) + 1)) +
          v * (1 - 2 / ((d.num_candles : ℚ) + 1)))) ∧
    (d.latest = none →
      (d.compute p true).latest =
        some (p * (2 / ((d.num_candles : ℚ) + 1)) +
          (sumAcc (d.newBuf p) / (d.num_candles : ℚ)) *
            (1 - 2 / ((d.num_candles : ℚ) + 1)))) := by
  rw [MAData.compute_produce d p true hl]
  constructor
  · intro v hv; simp [hv]
  · intro hv; simp [hv]

/-- C6, witness: the window just fills, so the previous average is seeded
with the simple mean of the buffer `[3, 1, 2]`. -/
theorem c6_exponential_witness :
    (d6w.compute 3 true).latest =
      some (3 * (2 / ((d6w.num_candles : ℚ) + 1)) +
        (sumAcc (d6w.newBuf 3) / (d6w.num_candles : ℚ)) *
          (1 - 2 / ((d6w.num_candles : ℚ) + 1))) :=
  (c6_exponential d6w 3 (by simp [MAData.newBuf, d6w])).2 rfl

/-! Claim C2. -/

/-- C2: returned value of the MACD/signal-line crossover evaluator. If any
of `macd_latest`, `macd_previous` or the signal accumulator's `latest` is
undefined the result is No-signal; when all three are defined the result is
Long on an upward cross, Short on a downward cross, and No-signal
otherwise. -/
theorem c2_macd_crossover_rule (tp : TradingPair) (mt : MarketDataTracker) :
    ((mt.macd.macd_latest = none ∨ mt.macd.signal.latest = none ∨
        mt.macd.macd_previous = none) →
      (trading_decision_macd tp mt).1 = PositionType.None) ∧
    (∀ m s p, mt.macd.macd_latest = some m → mt.macd.signal.latest = some s →
      mt.macd.macd_previous = some p →
      (trading_decision_macd tp mt).1 =
        (if m > s ∧ p < s then PositionType.Long
         else if m < s ∧ p > s then PositionType.Short
         else PositionType.None)) := by
  constructor
  · intro h
    rcases hm : mt.macd.macd_latest with _ | m <;>
      rcases hs : mt.macd.signal.latest with _ | s <;>
        rcases hp : mt.macd.macd_previous with _ | p <;>
          simp_all [trading_decision_macd]
  · intro m s p hm hs hp
    simp only [trading_decision_macd, hm, hs, hp]
    split_ifs <;> simp_all

/-- C2, witness: an upward cross (macd = 2, signal = 1, previous = 0)
classifies as Long, and a tracker with no MACD history classifies as
No-signal. -/
theorem c2_macd_crossover_rule_witness :
    (trading_decision_macd tp0 mtC3start).1 =
      (if (2 : ℚ) > 1 ∧ (0 : ℚ) < 1 then PositionType.Long
       else if (2 : ℚ) < 1 ∧ (0 : ℚ) > 1 then PositionType.Short
       else PositionType.None) ∧
    (trading_decision_macd tp0 mtFresh).1 = PositionType.None := by
  constructor
  · exact (c2_macd_crossover_rule tp0 mtC3start).2 2 1 0 rfl rfl rfl
  · exact (c2_macd_crossover_rule tp0 mtFresh).1 (Or.inl rfl)

/-! Claim C9. -/

/-- C9: the trend-reversal evaluator returns No-signal unless the slow
accumulator's latest value and the fast accumulator's full depth-3 history
are all defined; when they are, it classifies Long on a V-shaped dip of the
fast average below the current slow value, Short in the mirrored case, and
No-signal otherwise; the spec's example (fast history 5, 3 and slow latest
6) classifies Long. -/
theorem c9_trend_reversal_rule (tp : TradingPair) (mt : MarketDataTracker) :
    ((mt.slow_ma_data.latest = none ∨ mt.fast_ma_data.latest = none ∨
        mt.fast_ma_data.penultimate = none ∨
        mt.fast_ma_data.penultimate_penultimate = none) →
      (trading_decision_ma_trend_change tp mt).1 = PositionType.None) ∧
    (∀ c fl p pp, mt.slow_ma_data.latest = some c →
      mt.fast_ma_data.latest = some fl →
      mt.fast_ma_data.penultimate = some p →
      mt.fast_ma_data.penultimate_penultimate = some pp →
      (trading_decision_ma_trend_change tp mt).1 =
        (if c > p ∧ p < pp then PositionType.Long
         else if c < p ∧ p > pp then PositionType.Short
         else PositionType.None)) ∧
    (trading_decision_ma_trend_change tp0 mtC9).1 = PositionType.Long := by
  refine ⟨?_, ?_, ?_⟩
  · intro h
    rcases hc : mt.slow_ma_data.latest with _ | c <;>
      rcases hf : mt.fast_ma_data.latest with _ | fl <;>
        rcases hp : mt.fast_ma_data.penultimate with _ | p <;>
          rcases hpp : mt.fast_ma_data.penultimate_penultimate with _ | pp <;>
            simp_all [trading_decision_ma_trend_change]
  · intro c fl p pp hc hf hp hpp
    simp only [trading_decision_ma_trend_change, hc, hf, hp, hpp]
    split_ifs <;> simp_all
  · norm_num [trading_decision_ma_trend_change, mtC9]
    split <;> rfl

/-- C9, witness: the spec's example state, via the general rule. -/
theorem c9_trend_reversal_rule_witness :
    (trading_decision_ma_trend_change tp0 mtC9).1 =
      (if (6 : ℚ) > 3 ∧ (3 : ℚ) < 5 then PositionType.Long
       else if (6 : ℚ) < 3 ∧ (3 : ℚ) > 5 then PositionType.Short
       else PositionType.None) :=
  (c9_trend_reversal_rule tp0 mtC9).2.1 6 4 3 5 rfl rfl rfl rfl

/-! Claim C8. -/

/-- C8: the fast/slow crossover evaluator floors all three inputs to the
instrument's decimal precision before comparison and decides Long/Short on
the floored values; with precision 2, fast latest 10.004 and slow latest
10.00 floor to the same value, so the example tracker registers no cross. -/
theorem c8_cross_floor_rule (tp : TradingPair) (mt : MarketDataTracker) :
    (∀ fl sl fp, mt.fast_ma_data.latest = some fl →
      mt.slow_ma_data.latest = some sl →
      mt.fast_ma_data.penultimate = some fp →
      (trading_decision_ma_cross tp mt).1 =
        (if round_floor fl tp.get_price_dps > round_floor sl tp.get_price_dps ∧
            round_floor fp tp.get_price_dps < round_floor sl tp.get_price_dps then
          PositionType.Long
         else if round_floor fl tp.get_price_dps < round_floor sl tp.get_price_dps ∧
            round_floor fp tp.get_price_dps > round_floor sl tp.get_price_dps then
          PositionType.Short
         else PositionType.None)) ∧
    round_floor (10004 / 1000) 2 = round_floor 10 2 ∧
    (trading_decision_ma_cross tp0 mtC8).1 = PositionType.None := by
  refine ⟨?_, ?_, ?_⟩
  · intro fl sl fp hf hs hp
    simp only [trading_decision_ma_cross, hf, hs, hp]
    split_ifs <;> simp_all
  · simp [round_floor]; norm_num
  · have h10 : round_floor (10004 / 1000) 2 = 10 := by simp [round_floor]; norm_num
    have h10b : round_floor 10 2 = 10 := by simp [round_floor]; norm_num
    have h10c : round_floor (10002 / 1000) 2 = 10 := by simp [round_floor]; norm_num
    simp only [trading_decision_ma_cross, mtC8, tp0, TradingPair.get_price_dps]
    rw [h10, h10b, h10c]
    norm_num

/-- C8, witness: the precision example, via the general rule. -/
theorem c8_cross_floor_rule_witness :
    (trading_decision_ma_cross tp0 mtC8).1 =
      (if round_floor (10004 / 1000) tp0.get_price_dps >
          round_floor 10 tp0.get_price_dps ∧
          round_floor (10002 / 1000) tp0.get_price_dps <
          round_floor 10 tp0.get_price_dps then PositionType.Long
       else if round_floor (10004 / 1000) tp0.get_price_dps <
          round_floor 10 tp0.get_price_dps ∧
          round_floor (10002 / 1000) tp0.get_price_dps >
          round_floor 10 tp0.get_price_dps then PositionType.Short
       else PositionType.None) :=
  (c8_cross_floor_rule tp0 mtC8).1 (10004 / 1000) 10 (10002 / 1000) rfl rfl rfl

/-! Claim C10. -/

/-- C10: no evaluator ever assigns the No-signal value to its debounce
field. For each of the three evaluators, the debounce field after the call
equals the returned classification when the notification fired and is left
unchanged otherwise, and the notification fires exactly when the returned
classification is a direction (not No-signal) that differs from the stored
one — hence a No-signal tick leaves the field unchanged, and a recurrence
of the stored direction (even after intervening No-signal ticks) fires no
second notification. -/
theorem c10_debounce_never_none (tp : TradingPair) (mt : MarketDataTracker) :
    ((trading_decision_macd tp mt).2.1.macd_signal =
      (if (trading_decision_macd tp mt).2.2 = true then (trading_decision_macd tp mt).1
       else mt.macd_signal) ∧
     ((trading_decision_macd tp mt).2.2 = true ↔
       ((trading_decision_macd tp mt).1 ≠ PositionType.None ∧
        (trading_decision_macd tp mt).1 ≠ mt.macd_signal))) ∧
    ((trading_decision_ma_trend_change tp mt).2.1.ma_trend_change_signal =
      (if (trading_decision_ma_trend_change tp mt).2.2 = true then
        (trading_decision_ma_trend_change tp mt).1
       else mt.ma_trend_change_signal) ∧
     ((trading_decision_ma_trend_change tp mt).2.2 = true ↔
       ((trading_decision_ma_trend_change tp mt).1 ≠ PositionType.None ∧
        (trading_decision_ma_trend_change tp mt).1 ≠ mt.ma_trend_change_signal))) ∧
    ((trading_decision_ma_cross tp mt).2.1.ma_cross_signal =
      (if (trading_decision_ma_cross tp mt).2.2 = true then (trading_decision_ma_cross tp mt).1
       else mt.ma_cross_signal) ∧
     ((trading_decision_ma_cross tp mt).2.2 = true ↔
       ((trading_decision_ma_cross tp mt).1 ≠ PositionType.None ∧
        (trading_decision_ma_cross tp mt).1 ≠ mt.ma_cross_signal))) := by
  refine ⟨?_, ?_, ?_⟩
  · rcases hm : mt.macd.macd_latest with _ | m <;>
      rcases hs : mt.macd.signal.latest with _ | s <;>
        rcases hp : mt.macd.macd_previous with _ | p <;>
          simp_all [trading_decision_macd] <;>
          split_ifs <;> simp_all [eq_comm]
  · rcases hc : mt.slow_ma_data.latest with _ | c <;>
      rcases hf : mt.fast_ma_data.latest with _ | fl <;>
        rcases hp : mt.fast_ma_data.penultimate with _ | p <;>
          rcases hpp : mt.fast_ma_data.penultimate_penultimate with _ | pp <;>
            simp_all [trading_decision_ma_trend_change] <;>
            split_ifs <;> simp_all [eq_comm]
  · rcases hf : mt.fast_ma_data.latest with _ | fl <;>
      rcases hs : mt.slow_ma_data.latest with _ | sl <;>
        rcases hp : mt.fast_ma_data.penultimate with _ | fp <;>
          simp_all [trading_decision_ma_cross] <;>
          split_ifs <;> simp_all [eq_comm]

/-- C10, witness: on a fresh tracker the MACD evaluator leaves the debounce
field unchanged. -/
theorem c10_debounce_never_none_witness :
    (trading_decision_macd tp0 mtFresh).2.1.macd_signal =
      (if (trading_decision_macd tp0 mtFresh).2.2 = true then
        (trading_decision_macd tp0 mtFresh).1
       else mtFresh.macd_signal) :=
  (c10_debounce_never_none tp0 mtFresh).1.1

/-! Claim C3. -/

/-- On any tracker satisfying the upward-cross condition the MACD evaluator
returns Long, the stored debounce direction is Long afterwards, and the
notification fires exactly when the stored direction was not yet Long. -/
theorem macd_upcross_eval (tp : TradingPair) (mt : MarketDataTracker) (h : upcross mt) :
    (trading_decision_macd tp mt).1 = PositionType.Long ∧
    (trading_decision_macd tp mt).2.1.macd_signal = PositionType.Long ∧
    ((trading_decision_macd tp mt).2.2 = true ↔ mt.macd_signal ≠ PositionType.Long) := by
  obtain ⟨m, s, p, hm, hs, hp, hms, hps⟩ := h
  simp only [trading_decision_macd, hm, hs, hp]
  rw [if_pos (show m > s ∧ p < s from ⟨hms, hps⟩)]
  by_cases hd : mt.macd_signal = PositionType.Long
  · simp [hd]
  · simp [hd]

/-- C3, counterexample: a tracker whose stored MACD debounce direction is
already Long (as after an earlier Long run) and which satisfies the
upward-cross condition. The evaluator returns Long but leaves the tracker
unchanged and fires no notification — so on a run of 3 consecutive
upward-cross ticks starting from this state (the state is stationary, so
all 3 ticks see exactly this tracker) the debounce field is never assigned
and the notification never fires, contradicting "assigned exactly once, on
the first of those ticks". -/
theorem c3_counterexample :
    upcross mtC3 ∧
    mtC3.macd_signal = PositionType.Long ∧
    (trading_decision_macd tp0 mtC3).1 = PositionType.Long ∧
    (trading_decision_macd tp0 mtC3).2.1 = mtC3 ∧
    (trading_decision_macd tp0 mtC3).2.2 = false := by
  refine ⟨⟨2, 1, 0, rfl, rfl, rfl, by norm_num, by norm_num⟩, rfl, ?_, ?_, ?_⟩ <;>
    norm_num [trading_decision_macd, mtC3, macdUp]

/-- C3, amended: if the upward-cross condition holds on 3 consecutive ticks
and the stored debounce direction entering the run is not already Long,
then the evaluator returns Long on all 3 ticks while the notification fires
exactly once, on the first tick; in general the notification fires exactly
when a Long/Short classification differs from the stored direction (so a
transition of the returned direction back to a direction already stored,
e.g. after an intervening No-signal stretch, is not notified again). -/
theorem c3_debounced_notification (tp : TradingPair) (mt1 mt2 mt3 : MarketDataTracker)
    (h1 : upcross mt1) (h2 : upcross mt2) (h3 : upcross mt3)
    (h0 : mt1.macd_signal ≠ PositionType.Long)
    (t2 : mt2.macd_signal = (trading_decision_macd tp mt1).2.1.macd_signal)
    (t3 : mt3.macd_signal = (trading_decision_macd tp mt2).2.1.macd_signal) :
    (trading_decision_macd tp mt1).1 = PositionType.Long ∧
    (trading_decision_macd tp mt2).1 = PositionType.Long ∧
    (trading_decision_macd tp mt3).1 = PositionType.Long ∧
    (trading_decision_macd tp mt1).2.2 = true ∧
    (trading_decision_macd tp mt2).2.2 = false ∧
    (trading_decision_macd tp mt3).2.2 = false := by
  obtain ⟨d1, s1, f1⟩ := macd_upcross_eval tp mt1 h1
  obtain ⟨d2, s2, f2⟩ := macd_upcross_eval tp mt2 h2
  obtain ⟨d3, s3, f3⟩ := macd_upcross_eval tp mt3 h3
  have hm2 : mt2.macd_signal = PositionType.Long := by rw [t2, s1]
  have hm3 : mt3.macd_signal = PositionType.Long := by rw [t3, s2]
  refine ⟨d1, d2, d3, f1.mpr h0, ?_, ?_⟩
  · cases hb : (trading_decision_macd tp mt2).2.2
    · rfl
    · exact absurd hm2 (f2.mp hb)
  · cases hb : (trading_decision_macd tp mt3).2.2
    · rfl
    · exact absurd hm3 (f3.mp hb)

/-- C3, witness: a 3-tick upward-cross run starting with stored direction
No-signal; after the first tick the stored direction is Long. -/
theorem c3_debounced_notification_witness :
    (trading_decision_macd tp0 mtC3start).1 = PositionType.Long ∧
    (trading_decision_macd tp0 mtC3).1 = PositionType.Long ∧
    (trading_decision_macd tp0 mtC3).1 = PositionType.Long ∧
    (trading_decision_macd tp0 mtC3start).2.2 = true ∧
    (trading_decision_macd tp0 mtC3).2.2 = false ∧
    (trading_decision_macd tp0 mtC3).2.2 = false := by
  have up1 : upcross mtC3start := ⟨2, 1, 0, rfl, rfl, rfl, by norm_num, by norm_num⟩
  have up2 : upcross mtC3 := ⟨2, 1, 0, rfl, rfl, rfl, by norm_num, by norm_num⟩
  exact c3_debounced_notification tp0 mtC3start mtC3 mtC3 up1 up2 up2
    (by decide)
    (by rw [(macd_upcross_eval tp0 mtC3start up1).2.1]; rfl)
    (by rw [(macd_upcross_eval tp0 mtC3 up2).2.1]; rfl)

/-! Claim C7. -/

theorem MACD.feed_empty (m : MACD) : m.feed [] = m := rfl

theorem MACD.feed_push (m : MACD) (p : ℚ) (ps : List ℚ) :
    m.feed (p :: ps) = (m.compute p).feed ps := rfl

/-- When the slow accumulator still has no value after this tick,
`MACD::compute` only advances the two price accumulators. -/
theorem MACD.compute_of_none (m : MACD) (p : ℚ)
    (h : (m.ema26.compute p true).latest = none) :
    m.compute p =
      { m with
        ema12 := m.ema12.compute p true
        ema26 := m.ema26.compute p true } := by
  simp [MACD.compute, h]

/-- When the slow accumulator has a value after this tick, `MACD::compute`
shifts `macd_latest` into `macd_previous` (if defined), stores the fresh
fast-minus-slow differential, and feeds it into the signal accumulator. -/
theorem MACD.compute_of_some (m : MACD) (p : ℚ) (l26 : ℚ)
    (h : (m.ema26.compute p true).latest = some l26) :
    m.compute p =
      { ema12 := m.ema12.compute p true
        ema26 := m.ema26.compute p true
        signal := m.signal.compute ((m.ema12.compute p true).latest.getD 0 - l26) true
        macd_latest := some ((m.ema12.compute p true).latest.getD 0 - l26)
        macd_previous :=
          if m.macd_latest.isSome = true then m.macd_latest else m.macd_previous } := by
  by_cases hml : m.macd_latest.isSome = true <;> simp [MACD.compute, h, hml]

theorem MacdInv.initial : MacdInv 0 MACD.new := by
  refine ⟨MAInv.base 12 (by norm_num), MAInv.base 26 (by norm_num), ?_, ?_, fun h => absurd h (by omega)⟩
  · simpa using MAInv.base 9 (by norm_num)
  · simp [MACD.new]

theorem MacdInv.tick {k : Nat} {m : MACD} (h : MacdInv k m) (p : ℚ) :
    MacdInv (k + 1) (m.compute p) := by
  obtain ⟨h12, h26, hsig, hml, hex⟩ := h
  have h12s := MAInv.step (by norm_num) h12 p true
  have h26s := MAInv.step (by norm_num) h26 p true
  rcases h26l : (m.ema26.compute p true).latest with _ | l26
  · have hk : ¬ 26 ≤ k + 1 := by
      intro hge
      have hs := h26s.2.2.2 hge
      rw [h26l] at hs
      simp at hs
    rw [MACD.compute_of_none m p h26l]
    refine ⟨h12s, h26s, ?_, ?_, fun hge => absurd hge hk⟩
    · have he : k + 1 - 25 = k - 25 := by omega
      rw [he]; exact hsig
    · show m.macd_latest.isSome = true ↔ 26 ≤ k + 1
      rw [hml]; omega
  · have hk : 26 ≤ k + 1 := by
      by_contra hlt
      have hs := (h26s.2.2.1 (by omega)).1
      rw [h26l] at hs
      simp at hs
    have h12some : (m.ema12.compute p true).latest.isSome = true :=
      h12s.2.2.2 (by omega)
    obtain ⟨l12, h12l⟩ := Option.isSome_iff_exists.mp h12some
    rw [MACD.compute_of_some m p l26 h26l]
    refine ⟨h12s, h26s, ?_, by simpa using hk, fun _ => ⟨l12, l26, h12l, h26l, by simp [h12l]⟩⟩
    have hs := MAInv.step (by norm_num) hsig ((m.ema12.compute p true).latest.getD 0 - l26) true
    have he : k - 25 + 1 = k + 1 - 25 := by omega
    rw [he] at hs
    exact hs

theorem MacdInv.run {k : Nat} {m : MACD} (h : MacdInv k m) (ps : List ℚ) :
    MacdInv (k + ps.length) (m.feed ps) := by
  induction ps generalizing m k with
  | nil => simpa [MACD.feed_empty] using h
  | cons p ps ih =>
      have hmid := ih (h.tick p)
      simpa [MACD.feed_push, Nat.add_comm, Nat.add_assoc, Nat.add_left_comm] using hmid

theorem MacdInv.of_run_new (ps : List ℚ) : MacdInv ps.length (MACD.new.feed ps) := by
  simpa using MacdInv.initial.run ps

/-- C7: the MACD pipeline. Per tick, the price is fed into the fast and
slow exponential accumulators; if the slow accumulator has no value yet,
nothing else changes; once it does, `macd_previous` receives the previous
`macd_latest` (when defined), `macd_latest` becomes fast minus slow, and
the fresh MACD value is fed into the signal accumulator. Over any run from
a fresh indicator, `macd_latest` is defined exactly once the slow (26)
accumulator has produced (and then equals fast minus slow), and the signal
accumulator has its own independent 9-value warm-up (its value appears
exactly from the 34th price on). -/
theorem c7_macd_pipeline (m : MACD) (p : ℚ) (ps : List ℚ) :
    ((m.compute p).ema12 = m.ema12.compute p true ∧
     (m.compute p).ema26 = m.ema26.compute p true) ∧
    ((m.ema26.compute p true).latest = none →
      (m.compute p).macd_latest = m.macd_latest ∧
      (m.compute p).macd_previous = m.macd_previous ∧
      (m.compute p).signal = m.signal) ∧
    (∀ l26, (m.ema26.compute p true).latest = some l26 →
      (m.compute p).macd_latest = some ((m.ema12.compute p true).latest.getD 0 - l26) ∧
      (m.compute p).macd_previous =
        (if m.macd_latest.isSome = true then m.macd_latest else m.macd_previous) ∧
      (m.compute p).signal =
        m.signal.compute ((m.ema12.compute p true).latest.getD 0 - l26) true) ∧
    ((MACD.new.feed ps).macd_latest.isSome = true ↔ 26 ≤ ps.length) ∧
    ((MACD.new.feed ps).ema26.latest.isSome = true ↔ 26 ≤ ps.length) ∧
    (26 ≤ ps.length → ∃ l12 l26,
      (MACD.new.feed ps).ema12.latest = some l12 ∧
      (MACD.new.feed ps).ema26.latest = some l26 ∧
      (MACD.new.feed ps).macd_latest = some (l12 - l26)) ∧
    (MACD.new.feed ps).signal.num_candles = 9 ∧
    ((MACD.new.feed ps).signal.latest.isSome = true ↔ 34 ≤ ps.length) := by
  obtain ⟨h12, h26, hsig, hml, hex⟩ := MacdInv.of_run_new ps
  refine ⟨?_, ?_, ?_, hml, ?_, hex, hsig.1, ?_⟩
  · rcases h26l : (m.ema26.compute p true).latest with _ | l26
    · rw [MACD.compute_of_none m p h26l]; exact ⟨rfl, rfl⟩
    · rw [MACD.compute_of_some m p l26 h26l]; exact ⟨rfl, rfl⟩
  · intro h26l
    rw [MACD.compute_of_none m p h26l]
    exact ⟨rfl, rfl, rfl⟩
  · intro l26 h26l
    rw [MACD.compute_of_some m p l26 h26l]
    exact ⟨rfl, rfl, rfl⟩
  · constructor
    · intro hs
      by_contra hlt
      have hnone := (h26.2.2.1 (by omega)).1
      rw [hnone] at hs
      simp at hs
    · exact h26.2.2.2
  · constructor
    · intro hs
      by_contra hlt
      have hnone := (hsig.2.2.1 (by omega)).1
      rw [hnone] at hs
      simp at hs
    · intro hge
      exact hsig.2.2.2 (by omega)

/-- C7, witness: one tick on a fresh indicator (slow accumulator still
warming, so the MACD fields are untouched), and the warm-up counts on the
empty run. -/
theorem c7_macd_pipeline_witness :
    (MACD.new.compute 1).ema12 = MACD.new.ema12.compute 1 true ∧
    (MACD.new.compute 1).macd_latest = MACD.new.macd_latest ∧
    ((MACD.new.feed []).macd_latest.isSome = true ↔ 26 ≤ ([] : List ℚ).length) := by
  have h := c7_macd_pipeline MACD.new 1 []
  have hn : (MACD.new.ema26.compute 1 true).latest = none := by
    simp [MACD.new, MAData.new, MAData.compute]
  exact ⟨h.1.1, (h.2.1 hn).1, h.2.2.2.1⟩
